import Mathlib

/-!
Shallow embedding of `script/check-coverage.py`, the coverage-gate script of
this repository, together with proofs of the specification's claims about it.

The script runs `forge coverage --report summary`, parses the tabular text
output into a per-file map of four coverage percentages, checks a hardcoded
list of production contracts against a 100%-on-all-metrics policy, lists
untracked `src/` files, and exits 0 on pass / 1 on fail or tool error.

Percentages are modelled as exact rationals (`Rat`); strings are processed as
`List Char`, mirroring Python's `str.split`, `str.strip`, `str.startswith`,
substring membership, and the regex search for the pattern matching one or
more digits, a dot, one or more digits, and a percent sign.
-/

namespace CheckCoverage

/-- `str.split(c)` (Python semantics): splitting the empty list gives `[[]]`,
and every occurrence of `c` separates two (possibly empty) cells. -/
def splitOnChar (c : Char) : List Char → List (List Char)
  | [] => [[]]
  | x :: xs =>
    let r := splitOnChar c xs
    if x = c then [] :: r
    else match r with
      | [] => [[x]]
      | h :: t => (x :: h) :: t

/-- `pat` occurs at the very start of `s` (Python `s.startswith(pat)`). -/
def leadsWith : List Char → List Char → Bool
  | [], _ => true
  | _ :: _, [] => false
  | p :: ps, c :: cs => p = c && leadsWith ps cs

/-- `pat in s` (Python substring membership). -/
def hasSub (pat : List Char) : List Char → Bool
  | [] => leadsWith pat []
  | c :: cs => leadsWith pat (c :: cs) || hasSub pat cs

/-- `s.strip()`: drop whitespace from both ends. -/
def stripChars (l : List Char) : List Char :=
  ((l.dropWhile Char.isWhitespace).reverse.dropWhile Char.isWhitespace).reverse

/-- The longest run of decimal digits at the head of the list, and the rest. -/
def takeDigits : List Char → List Char × List Char
  | [] => ([], [])
  | c :: cs =>
    if c.isDigit then
      let (d, r) := takeDigits cs
      (c :: d, r)
    else ([], c :: cs)

/-- Numeric value of a list of decimal digit characters. -/
def digitsVal (l : List Char) : Nat :=
  l.foldl (fun a c => 10 * a + (c.toNat - 48)) 0

/-- The rational value of the decimal numeral `ip.fp` (integer part `ip`,
fractional part `fp`), as Python's `float` would parse it (exactly, in our
rational model). -/
def ratOfDecimal (ip fp : List Char) : Rat :=
  mkRat (digitsVal ip * 10 ^ fp.length + digitsVal fp) (10 ^ fp.length)

/-- Attempt to match the regex `(\d+\.\d+)%` at the head of the list, returning
the value of the captured group.  For this pattern, Python's greedy matching
with backtracking is equivalent to: a maximal nonempty digit run, a dot, a
maximal nonempty digit run, then a percent sign (a shorter digit run is always
followed by a digit, which matches neither the dot nor the percent sign). -/
def matchHere (l : List Char) : Option Rat :=
  let d1 := (takeDigits l).1
  if d1.isEmpty then none
  else
    match (takeDigits l).2 with
    | '.' :: r2 =>
      let d2 := (takeDigits r2).1
      if d2.isEmpty then none
      else
        match (takeDigits r2).2 with
        | '%' :: _ => some (ratOfDecimal d1 d2)
        | _ => none
    | _ => none

/-- `re.search` for the pattern `(\d+\.\d+)%`: the match at the leftmost
position where one exists, `none` when no position matches. -/
def firstPercent : List Char → Option Rat
  | [] => none
  | c :: cs =>
    match matchHere (c :: cs) with
    | some v => some v
    | none => firstPercent cs

/-- One parsed table row: four coverage percentages, keyed by file path in the
report. Mirrors the Python dict literal with keys lines, statements, branches,
functions. -/
structure CoverageRecord where
  lines : Rat
  statements : Rat
  branches : Rat
  functions : Rat
deriving DecidableEq

/-- The `coverage_data` dict: file path to record, insertion-ordered. -/
abbrev Dict := List (String × CoverageRecord)

/-- Python dict assignment `d[k] = v`: replace in place if the key is present,
append otherwise. -/
def upsert (k : String) (v : CoverageRecord) : Dict → Dict
  | [] => [(k, v)]
  | (k', v') :: rest => if k' = k then (k, v) :: rest else (k', v') :: upsert k v rest

/-- Python dict lookup `d[k]` / `k in d`, as an option. -/
def lookupRec : Dict → String → Option CoverageRecord
  | [], _ => none
  | (k', v) :: rest, k => if k' = k then some v else lookupRec rest k

/-- The keys of the dict, in insertion order. -/
def keys (d : Dict) : List String := d.map Prod.fst

/-- The hardcoded PRODUCTION_CONTRACTS list of the script. -/
def PRODUCTION_CONTRACTS : List String :=
  ["src/CollectibleCast.sol",
   "src/Metadata.sol",
   "src/Minter.sol",
   "src/TransferValidator.sol",
   "src/Auction.sol"]

/-- Parse one line of the report, mirroring the loop body: the line must start
with the delimiter and contain a space-delimiter-space triple; the split must
give at least six parts; the stripped cell `parts[1]` must be nonempty and not
start with a dash.  The four metrics come from the first percentage pattern in
`parts[2]`..`parts[5]`, defaulting to 0 when no pattern matches. -/
def parseRow (line : List Char) : Option (String × CoverageRecord) :=
  if leadsWith ['|'] line && hasSub [' ', '|', ' '] line then
    let parts := splitOnChar '|' line
    if 6 ≤ parts.length then
      let contract := stripChars (parts.getD 1 [])
      if !contract.isEmpty && !(leadsWith ['-'] contract) then
        some (String.mk contract,
          { lines := (firstPercent (parts.getD 2 [])).getD 0,
            statements := (firstPercent (parts.getD 3 [])).getD 0,
            branches := (firstPercent (parts.getD 4 [])).getD 0,
            functions := (firstPercent (parts.getD 5 [])).getD 0 })
      else none
    else none
  else none

/-- The parsing loop over a list of lines, accumulating into the dict. -/
def parseFold (acc : Dict) : List (List Char) → Dict
  | [] => acc
  | l :: ls =>
    parseFold
      (match parseRow l with
       | some (k, v) => upsert k v acc
       | none => acc) ls

/-- `parseReport`: split the raw tool output on newlines and run the parsing
loop, producing the `coverage_data` dict. -/
def parseReport (raw : String) : Dict :=
  parseFold [] (splitOnChar '\n' raw.data)

/-- The per-metric check of the script: `value == 100.0`. -/
def metricPass (v : Rat) : Bool := v = 100

/-- The four metrics of a record, in the dict-iteration order of the script. -/
def metricsOf (r : CoverageRecord) : List (String × Rat) :=
  [("lines", r.lines), ("statements", r.statements),
   ("branches", r.branches), ("functions", r.functions)]

/-- Per-file, per-metric pass/fail breakdown, as printed by the script. -/
def fileBreakdown (r : CoverageRecord) : List (String × Bool) :=
  (metricsOf r).map (fun p => (p.1, metricPass p.2))

/-- All four metrics of the record equal 100. -/
def recordPass (r : CoverageRecord) : Bool :=
  (metricsOf r).all (fun p => metricPass p.2)

/-- The `all_pass` flag after the checking loop: every tracked contract that is
present in the dict has all four metrics equal to 100; absent contracts are
skipped. -/
def allPass (d : Dict) (tracked : List String) : Bool :=
  tracked.all (fun c =>
    match lookupRec d c with
    | some r => recordPass r
    | none => true)

/-- The verdict and the per-file breakdown of the checking loop (`evaluate` in
the specification's vocabulary). -/
def evaluate (d : Dict) (tracked : List String) :
    Bool × List (String × List (String × Bool)) :=
  (allPass d tracked,
   tracked.filterMap (fun c => (lookupRec d c).map (fun r => (c, fileBreakdown r))))

/-- Lexicographic code-point string comparison, as Python compares strings. -/
def strLeChars : List Char → List Char → Bool
  | [], _ => true
  | _ :: _, [] => false
  | a :: as, b :: bs => if a = b then strLeChars as bs else decide (a < b)

/-- Insert into a sorted list of strings. -/
def insSorted (x : String) : List String → List String
  | [] => [x]
  | y :: ys => if strLeChars x.data y.data then x :: y :: ys else y :: insSorted x ys

/-- `sorted(...)` on strings (insertion sort; Python's sort is also
comparison-based and stable, and only the resulting order matters here). -/
def sortStrs : List String → List String
  | [] => []
  | x :: xs => insSorted x (sortStrs xs)

/-- The "(not tracked)" listing of the script: iterate the sorted keys of the
dict and list those that start with `src/`, are not `src/Counter.sol`, and are
not in the tracked list. -/
def notTracked (d : Dict) : List String :=
  (sortStrs (keys d)).filter (fun c =>
    leadsWith "src/".data c.data &&
    !(c = "src/Counter.sol" : Bool) &&
    !(decide (c ∈ PRODUCTION_CONTRACTS)))

/-- The outcome of the `forge coverage` subprocess: captured stdout on exit
code 0, captured stderr otherwise. -/
inductive ToolResult where
  | ok (stdout : String)
  | err (stderr : String)

/-- The observable outcome of a run of `main`. -/
structure RunOutcome where
  exitCode : Nat
  printedErr : Option String
  breakdown : Option (List (String × List (String × Bool)))
  untrackedListed : List String
deriving DecidableEq

/-- `main`, as a function of the subprocess outcome: on tool failure print kill
the run with exit 1 printing the captured stderr and producing no breakdown;
otherwise parse, evaluate, list untracked files, and exit 0 iff all tracked
contracts found in the report pass all four metrics. -/
def runMain : ToolResult → RunOutcome
  | .err e =>
    { exitCode := 1, printedErr := some e, breakdown := none, untrackedListed := [] }
  | .ok out =>
    let d := parseReport out
    { exitCode := if allPass d PRODUCTION_CONTRACTS then 0 else 1,
      printedErr := none,
      breakdown := some (evaluate d PRODUCTION_CONTRACTS).2,
      untrackedListed := notTracked d }

/-- A well-formed report row for `src/Auction.sol` (used as a concrete
instantiation input). -/
def sampleRowAuction : String :=
  "| src/Auction.sol | 100.00% (10/10) | 100.00% (12/12) | 92.50% (37/40) | 100.00% (4/4) |"

/-- A report row whose first metric cell carries a percentage above 100. -/
def sampleRowOver : String :=
  "| src/X.sol | 250.00% (5/2) | 100.00% (1/1) | 100.00% (1/1) | 100.00% (1/1) |"

/-- A report with two data rows for the same file path. -/
def sampleDupReport : String :=
  "| src/Minter.sol | 10.00% (1/10) | 10.00% (1/10) | 10.00% (1/10) | 10.00% (1/10) |\n| src/Minter.sol | 100.00% (10/10) | 100.00% (10/10) | 100.00% (10/10) | 100.00% (10/10) |"

/-- A report row of the spec's claimed shape with a label cell before the file
path cell. -/
def sampleRowLabelled : String :=
  "| lbl | src/F.sol | 10.00% | 20.00% | 30.00% | 40.00% |"

/-- A report containing the untracked file `src/Counter.sol`. -/
def sampleCounterReport : String :=
  "| src/Counter.sol | 50.00% (1/2) | 50.00% (1/2) | 50.00% (1/2) | 50.00% (1/2) |"

/-- A line that starts with the delimiter, has interior delimiters and at least
six cells, but no space-delimiter-space triple. -/
def sampleTightRow : String := "|a|b|c|d|e|f"

/-! ## Helper lemmas -/

theorem parseRow_some_eq (line : List Char) (k : String) (r : CoverageRecord)
    (h : parseRow line = some (k, r)) :
    k = String.mk (stripChars ((splitOnChar '|' line).getD 1 [])) ∧
    r = { lines := (firstPercent ((splitOnChar '|' line).getD 2 [])).getD 0,
          statements := (firstPercent ((splitOnChar '|' line).getD 3 [])).getD 0,
          branches := (firstPercent ((splitOnChar '|' line).getD 4 [])).getD 0,
          functions := (firstPercent ((splitOnChar '|' line).getD 5 [])).getD 0 } := by
  simp only [parseRow] at h
  split at h
  · split at h
    · split at h
      · simp only [Option.some.injEq, Prod.mk.injEq] at h
        exact ⟨h.1.symm, h.2.symm⟩
      · exact Option.noConfusion h
    · exact Option.noConfusion h
  · exact Option.noConfusion h

theorem lookup_upsert (k k' : String) (v : CoverageRecord) (d : Dict) :
    lookupRec (upsert k v d) k' = if k = k' then some v else lookupRec d k' := by
  induction d with
  | nil => rfl
  | cons p rest ih =>
    obtain ⟨k₀, v₀⟩ := p
    by_cases h0 : k₀ = k
    · subst h0
      by_cases h1 : k₀ = k' <;> simp [upsert, lookupRec, h1]
    · by_cases h1 : k₀ = k' <;> by_cases h2 : k = k' <;>
        simp_all [upsert, lookupRec, ih]

theorem mem_insSorted (x a : String) (l : List String) :
    a ∈ insSorted x l ↔ a = x ∨ a ∈ l := by
  induction l with
  | nil => simp [insSorted]
  | cons y ys ih =>
    simp only [insSorted]
    split
    · simp [List.mem_cons]
    · simp only [List.mem_cons, ih]
      tauto

theorem mem_sortStrs (a : String) (l : List String) :
    a ∈ sortStrs l ↔ a ∈ l := by
  induction l with
  | nil => simp [sortStrs]
  | cons x xs ih => simp [sortStrs, mem_insSorted, ih]

theorem ratOfDecimal_nonneg (ip fp : List Char) : 0 ≤ ratOfDecimal ip fp := by
  unfold ratOfDecimal
  exact Rat.mkRat_nonneg (by positivity) _

theorem matchHere_nonneg (l : List Char) (v : Rat) (h : matchHere l = some v) :
    0 ≤ v := by
  simp only [matchHere] at h
  split at h
  · exact Option.noConfusion h
  · split at h
    · split at h
      · exact Option.noConfusion h
      · split at h
        · simp only [Option.some.injEq] at h
          rw [← h]
          exact ratOfDecimal_nonneg _ _
        · exact Option.noConfusion h
    · exact Option.noConfusion h

theorem firstPercent_nonneg (l : List Char) (v : Rat)
    (h : firstPercent l = some v) : 0 ≤ v := by
  induction l with
  | nil => exact Option.noConfusion h
  | cons c cs ih =>
    simp only [firstPercent] at h
    split at h
    · rename_i v₀ hm
      simp only [Option.some.injEq] at h
      rw [← h]
      exact matchHere_nonneg _ _ hm
    · exact ih h

theorem firstPercent_getD_nonneg (l : List Char) :
    (0 : Rat) ≤ (firstPercent l).getD 0 := by
  cases h : firstPercent l with
  | none => simp
  | some v =>
    simp only [Option.getD_some]
    exact firstPercent_nonneg l v h

theorem parseFold_nonneg (k : String) (r : CoverageRecord) :
    ∀ (ls : List (List Char)) (acc : Dict),
      (∀ k' r', lookupRec acc k' = some r' →
        0 ≤ r'.lines ∧ 0 ≤ r'.statements ∧ 0 ≤ r'.branches ∧ 0 ≤ r'.functions) →
      lookupRec (parseFold acc ls) k = some r →
      0 ≤ r.lines ∧ 0 ≤ r.statements ∧ 0 ≤ r.branches ∧ 0 ≤ r.functions := by
  intro ls
  induction ls with
  | nil =>
    intro acc hacc h
    exact hacc k r h
  | cons l ls ih =>
    intro acc hacc h
    rw [parseFold] at h
    cases hp : parseRow l with
    | none =>
      rw [hp] at h
      exact ih acc hacc h
    | some kv =>
      obtain ⟨k₀, v₀⟩ := kv
      rw [hp] at h
      refine ih _ ?_ h
      intro k' r' h'
      rw [lookup_upsert] at h'
      split at h'
      · simp only [Option.some.injEq] at h'
        obtain ⟨-, hv⟩ := parseRow_some_eq l k₀ v₀ hp
        rw [← h', hv]
        exact ⟨firstPercent_getD_nonneg _, firstPercent_getD_nonneg _,
          firstPercent_getD_nonneg _, firstPercent_getD_nonneg _⟩
      · exact hacc k' r' h'

theorem lookup_parseFold (k : String) :
    ∀ (ls : List (List Char)) (acc : Dict),
      lookupRec (parseFold acc ls) k =
        match (ls.filterMap parseRow).reverse.find? (fun p => p.1 = k) with
        | some p => some p.2
        | none => lookupRec acc k := by
  intro ls
  induction ls with
  | nil =>
    intro acc
    rfl
  | cons l ls ih =>
    intro acc
    rw [parseFold]
    cases hp : parseRow l with
    | none =>
      rw [ih]
      simp [List.filterMap_cons, hp]
    | some kv =>
      obtain ⟨k₀, v₀⟩ := kv
      rw [ih]
      simp only [List.filterMap_cons, hp, List.reverse_cons, List.find?_append]
      cases hf : (ls.filterMap parseRow).reverse.find? (fun p => p.1 = k) with
      | some p => simp [Option.or]
      | none =>
        simp only [Option.or]
        rw [lookup_upsert]
        by_cases h : k₀ = k <;> simp [List.find?, h]

theorem recordPass_iff (r : CoverageRecord) :
    recordPass r = true ↔
      (r.lines = 100 ∧ r.statements = 100 ∧ r.branches = 100 ∧ r.functions = 100) := by
  simp [recordPass, metricsOf, metricPass]

theorem allPass_iff (d : Dict) (tracked : List String) :
    allPass d tracked = true ↔
      ∀ c ∈ tracked, ∀ r, lookupRec d c = some r →
        (r.lines = 100 ∧ r.statements = 100 ∧ r.branches = 100 ∧ r.functions = 100) := by
  unfold allPass
  rw [List.all_eq_true]
  constructor
  · intro h c hc r hr
    have hh := h c hc
    rw [hr] at hh
    exact (recordPass_iff r).mp hh
  · intro h c hc
    cases hl : lookupRec d c with
    | none => simp only [hl]
    | some r =>
      simp only [hl]
      exact (recordPass_iff r).mpr (h c hc r hl)

/-! ## Claim theorems -/

/-- C1: the overall verdict is pass if and only if every tracked file present
in the report has all four metrics (lines, statements, branches, functions)
equal to exactly 100; a tracked file absent from the report contributes
nothing, and when zero tracked files are found in the report the verdict is
pass. -/
theorem verdict_pass_iff (d : Dict) (tracked : List String) :
    (allPass d tracked = true ↔
      ∀ c ∈ tracked, ∀ r, lookupRec d c = some r →
        (r.lines = 100 ∧ r.statements = 100 ∧ r.branches = 100 ∧ r.functions = 100)) ∧
    ((∀ c ∈ tracked, lookupRec d c = none) → allPass d tracked = true) := by
  refine ⟨allPass_iff d tracked, ?_⟩
  intro h
  rw [allPass_iff d tracked]
  intro c hc r hr
  rw [h c hc] at hr
  exact absurd hr (by simp)

theorem verdict_pass_iff_witness :
    (allPass [("src/Minter.sol", ⟨100, 100, 100, 100⟩)] PRODUCTION_CONTRACTS = true ↔
      ∀ c ∈ PRODUCTION_CONTRACTS, ∀ r,
        lookupRec [("src/Minter.sol", ⟨100, 100, 100, 100⟩)] c = some r →
          (r.lines = 100 ∧ r.statements = 100 ∧ r.branches = 100 ∧ r.functions = 100)) ∧
    ((∀ c ∈ PRODUCTION_CONTRACTS,
        lookupRec [("src/Minter.sol", ⟨100, 100, 100, 100⟩)] c = none) →
      allPass [("src/Minter.sol", ⟨100, 100, 100, 100⟩)] PRODUCTION_CONTRACTS = true) :=
  verdict_pass_iff [("src/Minter.sol", ⟨100, 100, 100, 100⟩)] PRODUCTION_CONTRACTS

/-- C2: the process exits with code 0 iff the verdict is pass; the exit code is
always 0 or 1; and when the tool invocation fails, the run exits 1, prints the
captured stderr, and produces no coverage breakdown. -/
theorem exit_code_contract (t : ToolResult) :
    ((runMain t).exitCode = 0 ↔
      ∃ out, t = .ok out ∧ allPass (parseReport out) PRODUCTION_CONTRACTS = true) ∧
    ((runMain t).exitCode = 0 ∨ (runMain t).exitCode = 1) ∧
    (∀ e, t = .err e →
      (runMain t).exitCode = 1 ∧ (runMain t).printedErr = some e ∧
      (runMain t).breakdown = none) := by
  cases t with
  | ok out =>
    refine ⟨?_, ?_, ?_⟩
    · by_cases h : allPass (parseReport out) PRODUCTION_CONTRACTS = true
      · simp [runMain, h]
      · simp [runMain, h]
    · by_cases h : allPass (parseReport out) PRODUCTION_CONTRACTS = true <;>
        simp [runMain, h]
    · intro e he
      exact ToolResult.noConfusion he
  | err e =>
    refine ⟨?_, ?_, ?_⟩
    · simp [runMain]
    · simp [runMain]
    · intro e' he
      cases he
      simp [runMain]

theorem exit_code_contract_witness :
    ((runMain (.err "compilation error")).exitCode = 0 ↔
      ∃ out, ToolResult.err "compilation error" = .ok out ∧
        allPass (parseReport out) PRODUCTION_CONTRACTS = true) ∧
    ((runMain (.err "compilation error")).exitCode = 0 ∨
      (runMain (.err "compilation error")).exitCode = 1) ∧
    (∀ e, ToolResult.err "compilation error" = .err e →
      (runMain (.err "compilation error")).exitCode = 1 ∧
      (runMain (.err "compilation error")).printedErr = some e ∧
      (runMain (.err "compilation error")).breakdown = none) :=
  exit_code_contract (.err "compilation error")

/-- C5: per-metric evaluation passes iff the metric equals 100 exactly: 99.99
fails, 100.00 passes, and a metric defaulted to 0 (missing cell) fails; the
per-record check is the conjunction of the four per-metric checks. -/
theorem metric_pass_iff_exactly_100 (v : Rat) :
    (metricPass v = true ↔ v = 100) ∧
    metricPass (mkRat 9999 100) = false ∧
    metricPass 100 = true ∧
    metricPass 0 = false ∧
    (∀ r : CoverageRecord,
      recordPass r =
        (metricPass r.lines && metricPass r.statements &&
         metricPass r.branches && metricPass r.functions)) := by
  refine ⟨by simp [metricPass], by decide, by decide, by decide, ?_⟩
  intro r
  simp [recordPass, metricsOf, Bool.and_assoc]

theorem metric_pass_iff_exactly_100_witness :
    ((metricPass (mkRat 9999 100) = true ↔ (mkRat 9999 100 : Rat) = 100) ∧
     metricPass (mkRat 9999 100) = false ∧
     metricPass 100 = true ∧
     metricPass 0 = false ∧
     (∀ r : CoverageRecord,
       recordPass r =
         (metricPass r.lines && metricPass r.statements &&
          metricPass r.branches && metricPass r.functions))) :=
  metric_pass_iff_exactly_100 (mkRat 9999 100)

/-- C9: `evaluate` is deterministic and idempotent: identical report and
tracked-list inputs always yield the identical verdict and identical per-file,
per-metric breakdown. -/
theorem evaluate_deterministic (d₁ d₂ : Dict) (t₁ t₂ : List String)
    (hd : d₁ = d₂) (ht : t₁ = t₂) :
    evaluate d₁ t₁ = evaluate d₂ t₂ := by
  rw [hd, ht]

theorem evaluate_deterministic_witness :
    evaluate [("src/Minter.sol", ⟨100, 100, 100, mkRat 185 2⟩)] PRODUCTION_CONTRACTS =
      evaluate [("src/Minter.sol", ⟨100, 100, 100, mkRat 185 2⟩)] PRODUCTION_CONTRACTS :=
  evaluate_deterministic _ _ _ _ rfl rfl

/-- C3 counterexample: on a data row of the claimed shape with a label cell
before the file-path cell, the parser keys the record by the first cell (the
label), not the second cell (the file path): `src/F.sol` is absent from the
report, and the stored record takes its metrics from cells 2 to 5, so its
lines metric comes from the file-path cell and degrades to 0. -/
theorem parse_keys_label_cell_cex :
    parseReport sampleRowLabelled = [("lbl", ⟨0, 10, 20, 30⟩)] ∧
    lookupRec (parseReport sampleRowLabelled) "src/F.sol" = none := by
  decide

/-- C3 (amended): for every accepted data row, the record key is the stripped
content of the first cell after the leading delimiter (`parts[1]`), and the
four metrics come from the four cells that immediately follow that cell
(`parts[2]` to `parts[5]`). -/
theorem parse_row_keys_first_cell (line : List Char) (k : String)
    (r : CoverageRecord) (h : parseRow line = some (k, r)) :
    k = String.mk (stripChars ((splitOnChar '|' line).getD 1 [])) ∧
    r.lines = (firstPercent ((splitOnChar '|' line).getD 2 [])).getD 0 ∧
    r.statements = (firstPercent ((splitOnChar '|' line).getD 3 [])).getD 0 ∧
    r.branches = (firstPercent ((splitOnChar '|' line).getD 4 [])).getD 0 ∧
    r.functions = (firstPercent ((splitOnChar '|' line).getD 5 [])).getD 0 := by
  obtain ⟨hk, hr⟩ := parseRow_some_eq line k r h
  subst hr
  exact ⟨hk, rfl, rfl, rfl, rfl⟩

theorem parse_row_keys_first_cell_witness :
    "src/Auction.sol" =
      String.mk (stripChars ((splitOnChar '|' sampleRowAuction.data).getD 1 [])) ∧
    (⟨100, 100, mkRat 185 2, 100⟩ : CoverageRecord).lines =
      (firstPercent ((splitOnChar '|' sampleRowAuction.data).getD 2 [])).getD 0 ∧
    (⟨100, 100, mkRat 185 2, 100⟩ : CoverageRecord).statements =
      (firstPercent ((splitOnChar '|' sampleRowAuction.data).getD 3 [])).getD 0 ∧
    (⟨100, 100, mkRat 185 2, 100⟩ : CoverageRecord).branches =
      (firstPercent ((splitOnChar '|' sampleRowAuction.data).getD 4 [])).getD 0 ∧
    (⟨100, 100, mkRat 185 2, 100⟩ : CoverageRecord).functions =
      (firstPercent ((splitOnChar '|' sampleRowAuction.data).getD 5 [])).getD 0 :=
  parse_row_keys_first_cell sampleRowAuction.data "src/Auction.sol"
    ⟨100, 100, mkRat 185 2, 100⟩ (by decide)

/-- C4 counterexample: `src/Counter.sol` is in the report, begins with the
production-source marker `src/`, and is not tracked, yet the script's "not
tracked" listing omits it (the code carves out this one path explicitly). -/
theorem counter_sol_not_listed_cex :
    lookupRec (parseReport sampleCounterReport) "src/Counter.sol" =
      some ⟨50, 50, 50, 50⟩ ∧
    leadsWith "src/".data "src/Counter.sol".data = true ∧
    "src/Counter.sol" ∉ PRODUCTION_CONTRACTS ∧
    notTracked (parseReport sampleCounterReport) = [] ∧
    (runMain (.ok sampleCounterReport)).untrackedListed = [] := by
  decide

/-- C4 (amended): a file path of the report is listed as "not tracked" iff it
begins with `src/`, differs from the hardcoded exception `src/Counter.sol`,
and is not in the tracked list; the listing never changes the exit code, which
is determined by the verdict alone. -/
theorem not_tracked_listing (d : Dict) (c : String) :
    (c ∈ notTracked d ↔
      (c ∈ keys d ∧ leadsWith "src/".data c.data = true ∧
       c ≠ "src/Counter.sol" ∧ c ∉ PRODUCTION_CONTRACTS)) ∧
    (∀ out, (runMain (.ok out)).exitCode =
      if allPass (parseReport out) PRODUCTION_CONTRACTS then 0 else 1) := by
  constructor
  · unfold notTracked
    rw [List.mem_filter, mem_sortStrs]
    simp [and_assoc]
  · intro out
    rfl

theorem not_tracked_listing_witness :
    (("src/Helper.sol" ∈
        notTracked [("src/Helper.sol", (⟨100, 100, 100, 100⟩ : CoverageRecord))]) ↔
      ("src/Helper.sol" ∈
        keys [("src/Helper.sol", (⟨100, 100, 100, 100⟩ : CoverageRecord))] ∧
       leadsWith "src/".data "src/Helper.sol".data = true ∧
       "src/Helper.sol" ≠ "src/Counter.sol" ∧
       "src/Helper.sol" ∉ PRODUCTION_CONTRACTS)) ∧
    (∀ out, (runMain (.ok out)).exitCode =
      if allPass (parseReport out) PRODUCTION_CONTRACTS then 0 else 1) :=
  not_tracked_listing [("src/Helper.sol", ⟨100, 100, 100, 100⟩)] "src/Helper.sol"

/-- C6: the metric extractor is a leftmost-match search: it returns `none` iff
no position of the cell matches the digits-dot-digits-percent pattern, and any
returned value is the match at the leftmost matching position; when a metric
cell of an accepted row has no match, the corresponding metric of the stored
record defaults to 0 (the parser is a total function, so no input aborts it). -/
theorem first_percent_leftmost (l : List Char) :
    (firstPercent l = none ↔ ∀ i, matchHere (l.drop i) = none) ∧
    (∀ v, firstPercent l = some v →
      ∃ i, matchHere (l.drop i) = some v ∧ ∀ j < i, matchHere (l.drop j) = none) ∧
    (∀ line k r, parseRow line = some (k, r) →
      (firstPercent ((splitOnChar '|' line).getD 2 []) = none → r.lines = 0) ∧
      (firstPercent ((splitOnChar '|' line).getD 3 []) = none → r.statements = 0) ∧
      (firstPercent ((splitOnChar '|' line).getD 4 []) = none → r.branches = 0) ∧
      (firstPercent ((splitOnChar '|' line).getD 5 []) = none → r.functions = 0)) := by
  refine ⟨?_, ?_, ?_⟩
  · induction l with
    | nil =>
      constructor
      · intro _ i
        rw [List.drop_nil]
        rfl
      · intro _
        rfl
    | cons c cs ih =>
      cases hm : matchHere (c :: cs) with
      | some v =>
        constructor
        · intro h
          simp only [firstPercent, hm] at h
          exact Option.noConfusion h
        · intro h
          have h0 := h 0
          rw [List.drop_zero, hm] at h0
          exact Option.noConfusion h0
      | none =>
        constructor
        · intro h i
          simp only [firstPercent, hm] at h
          cases i with
          | zero =>
            rw [List.drop_zero]
            exact hm
          | succ i =>
            rw [List.drop_succ_cons]
            exact (ih.mp h) i
        · intro h
          simp only [firstPercent, hm]
          rw [ih]
          intro i
          have hi := h (i + 1)
          rw [List.drop_succ_cons] at hi
          exact hi
  · induction l with
    | nil =>
      intro v h
      exact Option.noConfusion h
    | cons c cs ih =>
      intro v h
      cases hm : matchHere (c :: cs) with
      | some v₀ =>
        simp only [firstPercent, hm, Option.some.injEq] at h
        refine ⟨0, ?_, ?_⟩
        · rw [List.drop_zero, hm, h]
        · intro j hj
          exact absurd hj (Nat.not_lt_zero j)
      | none =>
        simp only [firstPercent, hm] at h
        obtain ⟨i, hi, hj⟩ := ih v h
        refine ⟨i + 1, ?_, ?_⟩
        · rw [List.drop_succ_cons]
          exact hi
        · intro j hjlt
          cases j with
          | zero =>
            rw [List.drop_zero]
            exact hm
          | succ j' =>
            rw [List.drop_succ_cons]
            exact hj j' (by omega)
  · intro line k r h
    obtain ⟨-, hr⟩ := parseRow_some_eq line k r h
    subst hr
    refine ⟨?_, ?_, ?_, ?_⟩ <;> intro hnone <;> rw [hnone] <;> rfl

theorem first_percent_leftmost_witness :
    ((firstPercent " src/F.sol ".data = none ↔
        ∀ i, matchHere (" src/F.sol ".data.drop i) = none) ∧
     (∀ v, firstPercent " src/F.sol ".data = some v →
        ∃ i, matchHere (" src/F.sol ".data.drop i) = some v ∧
          ∀ j < i, matchHere (" src/F.sol ".data.drop j) = none) ∧
     (∀ line k r, parseRow line = some (k, r) →
       (firstPercent ((splitOnChar '|' line).getD 2 []) = none → r.lines = 0) ∧
       (firstPercent ((splitOnChar '|' line).getD 3 []) = none → r.statements = 0) ∧
       (firstPercent ((splitOnChar '|' line).getD 4 []) = none → r.branches = 0) ∧
       (firstPercent ((splitOnChar '|' line).getD 5 []) = none → r.functions = 0))) :=
  first_percent_leftmost " src/F.sol ".data

/-- C7 counterexample: this line starts with the delimiter, contains interior
delimiters, splits into at least six cells, and its path cell is nonempty and
does not begin with "-", yet it contributes nothing to the report, because the
code additionally requires the three-character substring " | ". -/
theorem spaced_delimiter_required_cex :
    leadsWith ['|'] sampleTightRow.data = true ∧
    hasSub ['|'] (sampleTightRow.data.drop 1) = true ∧
    6 ≤ (splitOnChar '|' sampleTightRow.data).length ∧
    stripChars ((splitOnChar '|' sampleTightRow.data).getD 1 []) = ['a'] ∧
    leadsWith ['-'] (stripChars ((splitOnChar '|' sampleTightRow.data).getD 1 [])) =
      false ∧
    parseReport sampleTightRow = [] := by
  decide

/-- C7 (amended): a line contributes an entry iff it starts with the delimiter,
contains the delimiter surrounded by single spaces (" | ") as a substring,
splits on the delimiter into at least six cells, its path cell is nonempty
after stripping surrounding whitespace, and the stripped path cell does not
begin with "-"; a line contributing no entry leaves the report unchanged. -/
theorem data_row_iff (line : List Char) :
    ((parseRow line).isSome = true ↔
      (leadsWith ['|'] line = true ∧ hasSub [' ', '|', ' '] line = true ∧
       6 ≤ (splitOnChar '|' line).length ∧
       stripChars ((splitOnChar '|' line).getD 1 []) ≠ [] ∧
       leadsWith ['-'] (stripChars ((splitOnChar '|' line).getD 1 [])) = false)) ∧
    (parseRow line = none → ∀ acc, parseFold acc [line] = acc) := by
  refine ⟨?_, ?_⟩
  · by_cases h1 : leadsWith ['|'] line = true
    · by_cases h2 : hasSub [' ', '|', ' '] line = true
      · by_cases h3 : 6 ≤ (splitOnChar '|' line).length
        · by_cases h4 : stripChars ((splitOnChar '|' line).getD 1 []) = []
          · simp [parseRow, h1, h2, h3, h4]
          · by_cases h5 :
              leadsWith ['-'] (stripChars ((splitOnChar '|' line).getD 1 [])) = false
            · simp [parseRow, h1, h2, h3, h4, h5]
            · simp only [Bool.not_eq_false] at h5
              simp [parseRow, h1, h2, h3, h4, h5]
        · simp [parseRow, h1, h2, h3]
      · simp only [Bool.not_eq_true] at h2
        simp [parseRow, h1, h2]
    · simp only [Bool.not_eq_true] at h1
      simp [parseRow, h1]
  · intro hn acc
    simp [parseFold, hn]

theorem data_row_iff_witness :
    (((parseRow sampleTightRow.data).isSome = true ↔
      (leadsWith ['|'] sampleTightRow.data = true ∧
       hasSub [' ', '|', ' '] sampleTightRow.data = true ∧
       6 ≤ (splitOnChar '|' sampleTightRow.data).length ∧
       stripChars ((splitOnChar '|' sampleTightRow.data).getD 1 []) ≠ [] ∧
       leadsWith ['-'] (stripChars ((splitOnChar '|' sampleTightRow.data).getD 1 [])) =
         false)) ∧
     (parseRow sampleTightRow.data = none →
       ∀ acc, parseFold acc [sampleTightRow.data] = acc)) :=
  data_row_iff sampleTightRow.data

/-- C8 counterexample: a report row carrying `250.00%` yields a record whose
lines metric is 250, outside the claimed interval [0, 100]. -/
theorem metric_range_cex :
    lookupRec (parseReport sampleRowOver) "src/X.sol" = some ⟨250, 100, 100, 100⟩ ∧
    ¬ ((250 : Rat) ≤ 100) := by
  decide

/-- C8 (amended): every record produced by parsing has all four metric fields
present (the record type makes them total) and each is nonnegative; no upper
bound of 100 is enforced by the code. -/
theorem record_fields_nonneg (raw k : String) (r : CoverageRecord)
    (h : lookupRec (parseReport raw) k = some r) :
    0 ≤ r.lines ∧ 0 ≤ r.statements ∧ 0 ≤ r.branches ∧ 0 ≤ r.functions := by
  refine parseFold_nonneg k r _ [] ?_ h
  intro k' r' h'
  exact Option.noConfusion h'

theorem record_fields_nonneg_witness :
    0 ≤ (⟨250, 100, 100, 100⟩ : CoverageRecord).lines ∧
    0 ≤ (⟨250, 100, 100, 100⟩ : CoverageRecord).statements ∧
    0 ≤ (⟨250, 100, 100, 100⟩ : CoverageRecord).branches ∧
    0 ≤ (⟨250, 100, 100, 100⟩ : CoverageRecord).functions :=
  record_fields_nonneg sampleRowOver "src/X.sol" ⟨250, 100, 100, 100⟩ (by decide)

/-- C10: when several data rows of the input carry the same file path, the
report stores the record parsed from the last such row: looking up a path in
the parsed report yields exactly the entry of the last contributing row whose
key is that path (`find?` over the reversed row list). -/
theorem last_row_wins (raw k : String) :
    lookupRec (parseReport raw) k =
      (((splitOnChar '\n' raw.data).filterMap parseRow).reverse.find?
        (fun p => p.1 = k)).map Prod.snd := by
  unfold parseReport
  rw [lookup_parseFold]
  cases hf : ((splitOnChar '\n' raw.data).filterMap parseRow).reverse.find?
      (fun p => p.1 = k) with
  | none => rfl
  | some p => rfl

theorem last_row_wins_witness :
    lookupRec (parseReport sampleDupReport) "src/Minter.sol" =
      (((splitOnChar '\n' sampleDupReport.data).filterMap parseRow).reverse.find?
        (fun p => p.1 = "src/Minter.sol")).map Prod.snd :=
  last_row_wins sampleDupReport "src/Minter.sol"

example :
    lookupRec (parseReport sampleDupReport) "src/Minter.sol" =
      some ⟨100, 100, 100, 100⟩ := by decide

example :
    firstPercent "100.00% (12/12)".data = some 100 := by decide

example :
    firstPercent " 92.50% (37/40)".data = some (mkRat 185 2) := by decide

example :
    parseReport "| src/Minter.sol | 100.00% (5/5) | 100.00% (6/6) | 100.00% (2/2) | 100.00% (3/3) |" =
      [("src/Minter.sol", ⟨100, 100, 100, 100⟩)] := by decide

example :
    parseReport "|---|---|---|---|---|---|" = [] := by decide

end CheckCoverage
